import Mathlib

/-!
Verification development for the dedicated-server-availability-watcher
repository.  The Rust sources under `src/` are shallowly embedded below:
pure functions become Lean functions, the filesystem used by the
fingerprint store becomes an explicit map from paths to read outcomes,
and the interval-loop controller becomes a step function over an explicit
state record consuming a list of per-cycle inputs.
-/

namespace DSAW

/-- Error enumeration from `src/lib.rs` (`LibError`).  Payloads that only
carry an upstream error source (io, reqwest, serde) are dropped or kept as
plain data, the constructor structure is preserved. -/
inductive LibError where
  | IOError
  | EnvError (name : String)
  | ValueError (name value : String)
  | RequestError
  | ApiError (message : String)
  | JsonError
  | UnknownServer (server : String)
  | UnknownNotifier (notifier : String)
  | UnknownProvider (provider : String)
deriving DecidableEq, Repr

/-! ## JSON serialization of `Vec<String>` (serde_json)

`to_json_sha256` in `src/storage.rs` serializes its argument with
`serde_json::to_string`; the two call sites pass a `Vec<String>`
(the requested servers and `CheckResult.available_servers`).  The
definitions below reproduce the serde_json output for a vector of
strings: brackets, comma separators, quoted strings with the standard
escapes (quote, backslash, and control characters below 0x20). -/

/-- Lowercase hexadecimal digit for a nibble value. -/
def nibbleChar : Nat → Char
  | 0 => '0' | 1 => '1' | 2 => '2' | 3 => '3' | 4 => '4'
  | 5 => '5' | 6 => '6' | 7 => '7' | 8 => '8' | 9 => '9'
  | 10 => 'a' | 11 => 'b' | 12 => 'c' | 13 => 'd' | 14 => 'e' | _ => 'f'

/-- Hex digit of `n % 16`, as produced by the `{:x}` format. -/
def hexNib (n : Nat) : Char := nibbleChar (n % 16)

/-- serde_json escape of a single character inside a JSON string. -/
def jsonEscapeChar (c : Char) : List Char :=
  if c = '"' then ['\\', '"']
  else if c = '\\' then ['\\', '\\']
  else if c.toNat < 0x20 then
    match c.toNat with
    | 0x08 => ['\\', 'b']
    | 0x09 => ['\\', 't']
    | 0x0A => ['\\', 'n']
    | 0x0C => ['\\', 'f']
    | 0x0D => ['\\', 'r']
    | n => ['\\', 'u', '0', '0', hexNib (n / 16), hexNib n]
  else [c]

/-- serde_json serialization of one string (quoted, escaped). -/
def jsonString (s : String) : String :=
  String.mk ('"' :: (s.data.map jsonEscapeChar).flatten ++ ['"'])

/-- serde_json serialization of a `Vec<String>`. -/
def jsonVecString (l : List String) : String :=
  "[" ++ String.intercalate "," (l.map jsonString) ++ "]"

/-! ## UTF-8 and SHA-256

`Sha256::digest` hashes the UTF-8 bytes of the JSON string.  SHA-256 is
implemented from the FIPS 180-4 description on lists of byte values,
with 32-bit words as `Nat` reduced modulo `2 ^ 32`. -/

/-- UTF-8 encoding of one unicode scalar value. -/
def utf8EncodeChar (c : Char) : List Nat :=
  let n := c.toNat
  if n < 0x80 then [n]
  else if n < 0x800 then [0xC0 + n / 64, 0x80 + n % 64]
  else if n < 0x10000 then [0xE0 + n / 4096, 0x80 + (n / 64) % 64, 0x80 + n % 64]
  else [0xF0 + n / 262144, 0x80 + (n / 4096) % 64, 0x80 + (n / 64) % 64, 0x80 + n % 64]

/-- UTF-8 bytes of a string. -/
def utf8Encode (s : String) : List Nat :=
  (s.data.map utf8EncodeChar).flatten

/-- Word size of the SHA-256 state. -/
def w32 : Nat := 2 ^ 32

/-- Right rotation of a 32-bit word given as a `Nat` below `2 ^ 32`. -/
def rotr32 (n x : Nat) : Nat := x / 2 ^ n + x % 2 ^ n * 2 ^ (32 - n)

/-- Logical right shift. -/
def shr32 (n x : Nat) : Nat := x / 2 ^ n

/-- Bitwise complement of a 32-bit word. -/
def not32 (x : Nat) : Nat := (w32 - 1) - x

/-- SHA-256 round constants (FIPS 180-4, section 4.2.2, here written in
decimal). -/
def sha256K : List Nat :=
  [1116352408, 1899447441, 3049323471, 3921009573, 961987163,
   1508970993, 2453635748, 2870763221, 3624381080, 310598401,
   607225278, 1426881987, 1925078388, 2162078206, 2614888103,
   3248222580, 3835390401, 4022224774, 264347078, 604807628,
   770255983, 1249150122, 1555081692, 1996064986, 2554220882,
   2821834349, 2952996808, 3210313671, 3336571891, 3584528711,
   113926993, 338241895, 666307205, 773529912, 1294757372,
   1396182291, 1695183700, 1986661051, 2177026350, 2456956037,
   2730485921, 2820302411, 3259730800, 3345764771, 3516065817,
   3600352804, 4094571909, 275423344, 430227734, 506948616,
   659060556, 883997877, 958139571, 1322822218, 1537002063,
   1747873779, 1955562222, 2024104815, 2227730452, 2361852424,
   2428436474, 2756734187, 3204031479, 3329325298]

/-- SHA-256 initial hash value (FIPS 180-4, section 5.3.3, in decimal). -/
def sha256H0 : List Nat :=
  [1779033703, 3144134277, 1013904242, 2773480762, 1359893119,
   2600822924, 528734635, 1541459225]

/-- Iterate a function a fixed number of times. -/
def iterateFun {α : Type} (f : α → α) : Nat → α → α
  | 0, a => a
  | n + 1, a => iterateFun f n (f a)

/-- One message-schedule extension step: appends word `w[i]` for the
current length `i` of the schedule. -/
def sha256ExtendStep (w : List Nat) : List Nat :=
  let i := w.length
  let w15 := w.getD (i - 15) 0
  let w2 := w.getD (i - 2) 0
  let s0 := Nat.xor (Nat.xor (rotr32 7 w15) (rotr32 18 w15)) (shr32 3 w15)
  let s1 := Nat.xor (Nat.xor (rotr32 17 w2) (rotr32 19 w2)) (shr32 10 w2)
  w ++ [(w.getD (i - 16) 0 + s0 + w.getD (i - 7) 0 + s1) % w32]

/-- Extends a 16-word block to the 64-word message schedule. -/
def sha256Schedule (block : List Nat) : List Nat :=
  iterateFun sha256ExtendStep 48 block

/-- SHA-256 compression of one 16-word block into the running hash. -/
def sha256Compress (h : List Nat) (block : List Nat) : List Nat :=
  let kw := sha256K.zip (sha256Schedule block)
  let st := kw.foldl
    (fun (s : List Nat) (p : Nat × Nat) =>
      match s with
      | [a, b, c, d, e, f, g, hh] =>
        let bigS1 := Nat.xor (Nat.xor (rotr32 6 e) (rotr32 11 e)) (rotr32 25 e)
        let ch := Nat.xor (Nat.land e f) (Nat.land (not32 e) g)
        let t1 := (hh + bigS1 + ch + p.1 + p.2) % w32
        let bigS0 := Nat.xor (Nat.xor (rotr32 2 a) (rotr32 13 a)) (rotr32 22 a)
        let maj := Nat.xor (Nat.xor (Nat.land a b) (Nat.land a c)) (Nat.land b c)
        let t2 := (bigS0 + maj) % w32
        [(t1 + t2) % w32, a, b, c, (d + t1) % w32, e, f, g]
      | other => other)
    h
  (h.zip st).map (fun p => (p.1 + p.2) % w32)

/-- Big-endian byte decomposition on `k` bytes. -/
def toBytesBE : Nat → Nat → List Nat
  | 0, _ => []
  | k + 1, n => toBytesBE k (n / 256) ++ [n % 256]

/-- SHA-256 padding: append 0x80, zeros up to 56 mod 64, then the
64-bit big-endian bit length. -/
def sha256Pad (msg : List Nat) : List Nat :=
  let len := msg.length
  let zeros := (120 - (len + 1) % 64) % 64
  msg ++ [0x80] ++ List.replicate zeros 0 ++ toBytesBE 8 (len * 8)

/-- Groups bytes into big-endian 32-bit words. -/
def bytesToWords : List Nat → List Nat
  | b0 :: b1 :: b2 :: b3 :: rest =>
    (((b0 * 256 + b1) * 256 + b2) * 256 + b3) :: bytesToWords rest
  | _ => []

/-- Splits a word list into chunks of 16, with explicit fuel. -/
def chunks16 : Nat → List Nat → List (List Nat)
  | 0, _ => []
  | _, [] => []
  | fuel + 1, ws => ws.take 16 :: chunks16 fuel (ws.drop 16)

/-- SHA-256 digest (32 bytes) of a byte list. -/
def sha256Bytes (msg : List Nat) : List Nat :=
  let ws := bytesToWords (sha256Pad msg)
  let blocks := chunks16 ws.length ws
  (blocks.foldl sha256Compress sha256H0).map (toBytesBE 4) |>.flatten

/-- Two lowercase hex digits of one byte, as printed by `{:02x}`. -/
def hexByte (b : Nat) : List Char := [hexNib (b / 16), hexNib b]

/-- Lowercase hex string of a byte list, the `format!("{:x}", digest)`
rendering of a SHA-256 digest. -/
def hexDigest (bytes : List Nat) : String :=
  String.mk (bytes.map hexByte).flatten

/-- `to_json_sha256` from `src/storage.rs`, specialized to the
`Vec<String>` values it is applied to.  `serde_json::to_string` cannot
fail on a vector of strings, so the function is total here. -/
def to_json_sha256 (value : List String) : String :=
  hexDigest (sha256Bytes (utf8Encode (jsonVecString value)))

/-! ## CheckResult and the fingerprint store (`src/storage.rs`)

The filesystem under the storage root is modeled explicitly: a path is a
list of components (`PathBuf::push` appends one), and reading a path
yields one of the three outcomes `fs::read_to_string` is distinguished
on in `get_hash`: file absent (`NotFound`), any other io failure, or a
successfully read string.  Writing is modeled as updating the map, which
is the post-state of a successful `fs::write`. -/

/-- `CheckResult` from `src/lib.rs`: provider name plus the ordered list
of requested servers found available.  Derives equality as the Rust
structure derives `PartialEq`. -/
structure CheckResult where
  provider_name : String
  available_servers : List String
deriving DecidableEq, Repr

/-- Fresh result of `CheckResult::new`. -/
def CheckResult.new (provider_name : String) : CheckResult :=
  ⟨provider_name, []⟩

/-- Outcome of reading a path, as `get_hash` distinguishes the cases of
`fs::read_to_string`: the file does not exist, some other io failure
(`kind` separates distinct failure causes), or the file content. -/
inductive ReadResult where
  | notFound
  | failure (kind : Nat)
  | ok (content : String)
deriving DecidableEq, Repr

/-- The filesystem visible to the fingerprint store. -/
def FS : Type := List String → ReadResult

/-- The filesystem after a successful `fs::write` of `content` at `p`. -/
def fsWrite (fs : FS) (p : List String) (content : String) : FS :=
  fun q => if q = p then ReadResult.ok content else fs q

/-- Membership in the unicode White_Space set, the predicate behind the
Rust `str::trim`. -/
def isRustWhitespace (c : Char) : Bool :=
  let n := c.toNat
  n == 0x09 || n == 0x0A || n == 0x0B || n == 0x0C || n == 0x0D || n == 0x20 ||
  n == 0x85 || n == 0xA0 || n == 0x1680 || (Nat.ble 0x2000 n && Nat.ble n 0x200A) ||
  n == 0x2028 || n == 0x2029 || n == 0x202F || n == 0x205F || n == 0x3000

/-- Rust `str::trim`: drop unicode whitespace from both ends. -/
def rustTrim (s : String) : String :=
  String.mk (((s.data.dropWhile isRustWhitespace).reverse.dropWhile isRustWhitespace).reverse)

namespace CheckResultStorage

/-- `CheckResultStorage::get_path`: file named
`{provider_name}-{hash}.sha256` pushed onto the storage root, where the
hash is `to_json_sha256` of the requested server list as given. -/
def get_path (base : List String) (provider_name : String) (servers : List String) :
    List String :=
  base ++ [provider_name ++ "-" ++ to_json_sha256 servers ++ ".sha256"]

/-- `CheckResultStorage::put_hash`: writes the hash of
`check_result.available_servers` at the computed path.  The returned
filesystem is the post-state of the successful write; a failing
`fs::write` surfaces as `IOError` in the source and leaves no defined
post-state to model. -/
def put_hash (fs : FS) (base : List String) (provider_name : String)
    (servers : List String) (check_result : CheckResult) : FS :=
  fsWrite fs (get_path base provider_name servers)
    (to_json_sha256 check_result.available_servers)

/-- `CheckResultStorage::get_hash`: reads the stored hash.  `NotFound`
maps to `Ok(None)`, any other read failure to `Err(IOError)`, and a read
string is trimmed. -/
def get_hash (fs : FS) (base : List String) (provider_name : String)
    (servers : List String) : Except LibError (Option String) :=
  match fs (get_path base provider_name servers) with
  | ReadResult.notFound => Except.ok none
  | ReadResult.failure _ => Except.error LibError.IOError
  | ReadResult.ok content => Except.ok (some (rustTrim content))

/-- `CheckResultStorage::is_equal`: compares the hash of the current
`available_servers` with the stored one; a missing record is `Ok(false)`. -/
def is_equal (fs : FS) (base : List String) (provider_name : String)
    (servers : List String) (check_result : CheckResult) : Except LibError Bool :=
  match get_hash fs base provider_name servers with
  | Except.error e => Except.error e
  | Except.ok none => Except.ok false
  | Except.ok (some stored) =>
      Except.ok (to_json_sha256 check_result.available_servers == stored)

end CheckResultStorage

/-! ## OVH provider (`src/providers/ovh.rs`)

The network call in `check` is the availability query filtered by server
id; its decoded response (a vector of per-server records) is the input
of the embedded function. -/

/-- One datacenter availability record of the OVH response. -/
structure OvhDedicatedServerDatacenterAvailability where
  availability : String
  datacenter : String
deriving DecidableEq, Repr

/-- `OvhDedicatedServerDatacenterAvailability::is_available`: everything
except the literal statuses `unavailable` and `unknown` counts as stock. -/
def OvhDedicatedServerDatacenterAvailability.is_available
    (d : OvhDedicatedServerDatacenterAvailability) : Bool :=
  if d.availability == "unavailable" || d.availability == "unknown" then false else true

/-- One per-server record of the OVH response. -/
structure OvhDedicatedServerInformation where
  datacenters : List OvhDedicatedServerDatacenterAvailability
  memory : Option String
  storage : Option String
  server : String
deriving DecidableEq, Repr

/-- `OvhDedicatedServerInformation::is_available`: some datacenter
reports stock (the source loop with early return). -/
def OvhDedicatedServerInformation.is_available
    (info : OvhDedicatedServerInformation) : Bool :=
  info.datacenters.any (fun d => d.is_available)

namespace Ovh

/-- `Ovh::check` on the decoded, already server-filtered response:
`Vec::pop` takes the last record (`getLast?`), leaving `dropLast`; an
empty response is `UnknownServer`, a leftover after the pop is the
ambiguity `ApiError`, otherwise the availability of the single record. -/
def check (server : String) (results : List OvhDedicatedServerInformation) :
    Except LibError Bool :=
  match results.getLast? with
  | none => Except.error (LibError.UnknownServer server)
  | some result =>
    if results.dropLast.isEmpty then Except.ok result.is_available
    else Except.error (LibError.ApiError ("Multiple references found for server " ++ server))

end Ovh

/-! ## Scaleway provider (`src/providers/scaleway.rs`)

`get_offers` queries each configured zone and merges the per-zone offer
lists into a `HashMap<String, ScalewayBaremetalOffer>` keyed by offer
id.  The map is modeled as an association list in insertion order; the
entry API of the source (lookup, in-place modification, insertion when
absent) is reproduced below.  The per-zone responses, already decoded,
are the input of the embedded merge. -/

/-- `ScalewayBaremetalOffer`, with the disk and memory capacities kept
as plain numbers. -/
structure ScalewayBaremetalOffer where
  id : String
  name : String
  stock : String
  disks : List Nat
  enable : Bool
  memories : List Nat
deriving DecidableEq, Repr

/-- `ScalewayBaremetalOffer::is_available`: enabled and not out of stock. -/
def ScalewayBaremetalOffer.is_available (o : ScalewayBaremetalOffer) : Bool :=
  o.enable && !(o.stock == "empty")

/-- Lookup in the association-list model of the offer map. -/
def lookupOffer : List (String × ScalewayBaremetalOffer) → String →
    Option ScalewayBaremetalOffer
  | [], _ => none
  | p :: rest, k => if p.1 = k then some p.2 else lookupOffer rest k

/-- In-place modification of the entry at a key, the `and_modify` of the
entry API. -/
def modifyOffer (m : List (String × ScalewayBaremetalOffer)) (k : String)
    (f : ScalewayBaremetalOffer → ScalewayBaremetalOffer) :
    List (String × ScalewayBaremetalOffer) :=
  m.map (fun p => if p.1 = k then (p.1, f p.2) else p)

namespace Scaleway

/-- `Scaleway::insert_or_update_offer`: when the id is present, replace
the stored enable and stock fields if the incoming offer is available;
when absent, insert the offer. -/
def insert_or_update_offer (m : List (String × ScalewayBaremetalOffer))
    (offer : ScalewayBaremetalOffer) : List (String × ScalewayBaremetalOffer) :=
  match lookupOffer m offer.id with
  | some _ =>
    modifyOffer m offer.id (fun info =>
      if offer.is_available then { info with enable := offer.enable, stock := offer.stock }
      else info)
  | none => m ++ [(offer.id, offer)]

/-- The merge loop of `Scaleway::get_offers` over the decoded per-zone
offer lists, in zone order. -/
def get_offers (zones : List (List ScalewayBaremetalOffer)) :
    List (String × ScalewayBaremetalOffer) :=
  zones.foldl (fun m zoneOffers => zoneOffers.foldl insert_or_update_offer m) []

end Scaleway

/-! ## Check controller (`src/providers.rs`)

`CheckRunner::check_servers` iterates the requested servers and asks the
provider about each one.  The provider is modeled as a pure function
from server id to the outcome of `ProviderTrait::check`.  The interval
loop is modeled as a step function over an explicit state record: the
in-memory `latest` result, the `first_check` and `first_notify` flags,
and the storage filesystem held by the runner.  One `CycleInput` carries
what the external world would answer during that cycle: the outcome of
the whole `check_servers` call and the outcome `notify_result` would
produce if invoked. -/

/-- `CheckRunner::check_servers`: walks the requested servers, pushing
every available one onto the accumulated `available_servers`; the `?` on
the provider check propagates the first failure immediately. -/
def check_servers (check : String → Except LibError Bool) :
    List String → List String → Except LibError (List String)
  | [], acc => Except.ok acc
  | server :: rest, acc =>
    match check server with
    | Except.error e => Except.error e
    | Except.ok true => check_servers check rest (acc ++ [server])
    | Except.ok false => check_servers check rest acc

/-- The server ids on which `check_servers` actually invokes the
provider check, in call order. -/
def check_servers_calls (check : String → Except LibError Bool) :
    List String → List String
  | [] => []
  | server :: rest =>
    match check server with
    | Except.error _ => [server]
    | Except.ok _ => server :: check_servers_calls check rest

/-- What one cycle of the interval loop observes from the outside world:
the outcome of its `check_servers` call, and the outcome its
`notify_result` call would produce if the loop reaches it. -/
structure CycleInput where
  check : Except LibError (List String)
  notify : Except LibError Unit

/-- Observable side effects of one cycle, in order of occurrence. -/
inductive LoopEvent where
  | logCheckError (e : LibError)
  | notifyAttempt (r : CheckResult) (outcome : Except LibError Unit)
  | logNotifyError (e : LibError)

/-- The mutable state of `check_interval_loop` together with the storage
held by the `CheckRunner` (`self.storage`). -/
structure LoopState where
  provider_name : String
  latest : CheckResult
  first_check : Bool
  first_notify : Bool
  storage : FS

/-- Outcome of one loop iteration: proceed with a new state, or return
from the loop with an error. -/
inductive StepOutcome where
  | next (s : LoopState) (events : List LoopEvent)
  | terminated (e : LibError) (events : List LoopEvent)

/-- One iteration of `check_interval_loop`, in source order: on a check
failure return it when `first_check`, else log and continue; on success
compare `current` with the in-memory `latest`, and when they differ
notify, move `current` into `latest`, then return the notify failure
when `first_notify`, else log it. -/
def loopStep (s : LoopState) (c : CycleInput) : StepOutcome :=
  match c.check with
  | Except.error e =>
    if s.first_check then StepOutcome.terminated e []
    else StepOutcome.next { s with first_check := false } [LoopEvent.logCheckError e]
  | Except.ok avail =>
    let current : CheckResult := ⟨s.provider_name, avail⟩
    if current = s.latest then
      StepOutcome.next { s with first_check := false } []
    else
      match c.notify with
      | Except.ok _ =>
        StepOutcome.next
          { s with latest := current, first_check := false, first_notify := false }
          [LoopEvent.notifyAttempt current (Except.ok ())]
      | Except.error e =>
        if s.first_notify then
          StepOutcome.terminated e [LoopEvent.notifyAttempt current (Except.error e)]
        else
          StepOutcome.next
            { s with latest := current, first_check := false, first_notify := false }
            [LoopEvent.notifyAttempt current (Except.error e), LoopEvent.logNotifyError e]

/-- Result of running the (infinite) loop through a finite prefix of
cycle inputs: either it returned with an error during one of them, or it
is still running afterwards. -/
inductive LoopResult where
  | terminated (e : LibError) (events : List LoopEvent)
  | running (s : LoopState) (events : List LoopEvent)

/-- Runs `loopStep` over a list of cycle inputs, concatenating events. -/
def loopRun (s : LoopState) : List CycleInput → LoopResult
  | [] => LoopResult.running s []
  | c :: rest =>
    match loopStep s c with
    | StepOutcome.terminated e evs => LoopResult.terminated e evs
    | StepOutcome.next s2 evs =>
      match loopRun s2 rest with
      | LoopResult.terminated e evs2 => LoopResult.terminated e (evs ++ evs2)
      | LoopResult.running s3 evs2 => LoopResult.running s3 (evs ++ evs2)

/-- Entry state of `check_interval_loop`: fresh empty `latest`, both
first-time flags set. -/
def initLoopState (provider_name : String) (storage : FS) : LoopState :=
  { provider_name := provider_name
    latest := CheckResult.new provider_name
    first_check := true
    first_notify := true
    storage := storage }

/-! ## Concrete fixtures for witnesses and counterexamples -/

/-- Filesystem with no stored fingerprints. -/
def emptyFS : FS := fun _ => ReadResult.notFound

/-- Filesystem on which every read fails with an io error other than
`NotFound`. -/
def failFS : FS := fun _ => ReadResult.failure 0

/-- Storage state after persisting the fingerprint of the result
`available_servers = [A]` for provider `prov` and request `[A]`. -/
def storedFS : FS :=
  CheckResultStorage.put_hash emptyFS [] "prov" ["A"] ⟨"prov", ["A"]⟩

/-- Provider check that fails on server `A` and reports any other server
available. -/
def failOnA : String → Except LibError Bool :=
  fun s => if s = "A" then Except.error LibError.IOError else Except.ok true

/-- Provider check that reports every server available. -/
def allAvailable : String → Except LibError Bool :=
  fun _ => Except.ok true

/-- Loop state after one fully successful first cycle: both first-time
flags cleared, empty baseline. -/
def readyState : LoopState :=
  { provider_name := "p"
    latest := ⟨"p", []⟩
    first_check := false
    first_notify := false
    storage := emptyFS }

/-- Offer `X` reported out of stock by a zone. -/
def offerUnavailable : ScalewayBaremetalOffer :=
  { id := "X", name := "offer-x", stock := "empty", disks := [], enable := true,
    memories := [] }

/-- Offer `X` reported in stock by a zone. -/
def offerAvailable : ScalewayBaremetalOffer :=
  { id := "X", name := "offer-x", stock := "available", disks := [], enable := true,
    memories := [] }

/-- Availability of an id in the merged offer map: the availability of
its entry, false when absent. -/
def availableInMap (m : List (String × ScalewayBaremetalOffer)) (k : String) : Bool :=
  match lookupOffer m k with
  | some o => o.is_available
  | none => false

/-! ## Helper lemmas -/

/-- Hex digits are never unicode whitespace. -/
theorem nibbleChar_not_ws (m : Nat) : isRustWhitespace (nibbleChar m) = false := by
  unfold nibbleChar
  split <;> decide

/-- Dropping a prefix of elements on which the predicate is false keeps
the list intact. -/
theorem dropWhile_eq_self_of_all {α : Type} {p : α → Bool} {l : List α}
    (h : ∀ x ∈ l, p x = false) : l.dropWhile p = l := by
  cases l with
  | nil => rfl
  | cons a as => simp [List.dropWhile, h a (List.mem_cons_self a as)]

/-- The Rust trim is the identity on strings without whitespace. -/
theorem rustTrim_eq_self {s : String}
    (h : ∀ c ∈ s.data, isRustWhitespace c = false) : rustTrim s = s := by
  unfold rustTrim
  rw [dropWhile_eq_self_of_all h]
  rw [dropWhile_eq_self_of_all (fun c hc => h c (List.mem_reverse.mp hc))]
  rw [List.reverse_reverse]

/-- Every character of a hex digest is a hex digit. -/
theorem hexDigest_chars {bytes : List Nat} {c : Char}
    (h : c ∈ (hexDigest bytes).data) : ∃ m, c = nibbleChar m := by
  unfold hexDigest at h
  simp only [String.data] at h
  rcases List.mem_flatten.mp h with ⟨l, hl, hc⟩
  rcases List.mem_map.mp hl with ⟨b, _, rfl⟩
  simp only [hexByte, hexNib, List.mem_cons, List.not_mem_nil, or_false] at hc
  rcases hc with rfl | rfl
  · exact ⟨b / 16 % 16, rfl⟩
  · exact ⟨b % 16, rfl⟩

/-- Trimming a hex digest changes nothing. -/
theorem rustTrim_hexDigest (bytes : List Nat) :
    rustTrim (hexDigest bytes) = hexDigest bytes := by
  apply rustTrim_eq_self
  intro c hc
  rcases hexDigest_chars hc with ⟨m, rfl⟩
  exact nibbleChar_not_ws m

/-- Round trip of the fingerprint store: after `put_hash`, `is_equal`
with the same result answers true. -/
theorem is_equal_after_put_hash (fs : FS) (base : List String) (p : String)
    (servers : List String) (r : CheckResult) :
    CheckResultStorage.is_equal (CheckResultStorage.put_hash fs base p servers r)
      base p servers r = Except.ok true := by
  unfold CheckResultStorage.is_equal CheckResultStorage.get_hash
    CheckResultStorage.put_hash fsWrite
  simp [to_json_sha256, rustTrim_hexDigest]

/-- Successful runs of `check_servers` extend the accumulator with an
ordered selection of the requested servers, each of which the provider
reported available. -/
theorem check_servers_ok_characterization
    (check : String → Except LibError Bool) (servers : List String) :
    ∀ acc out, check_servers check servers acc = Except.ok out →
      ∃ l, out = acc ++ l ∧ l.Sublist servers ∧ ∀ x ∈ l, check x = Except.ok true := by
  induction servers with
  | nil =>
    intro acc out h
    unfold check_servers at h
    cases h
    exact ⟨[], by simp, List.Sublist.refl [], by simp⟩
  | cons s rest ih =>
    intro acc out h
    unfold check_servers at h
    cases hc : check s with
    | error e => rw [hc] at h; cases h
    | ok b =>
      rw [hc] at h
      cases b with
      | true =>
        rcases ih (acc ++ [s]) out h with ⟨l, hout, hsub, hall⟩
        refine ⟨s :: l, by simpa using hout, List.Sublist.cons₂ s hsub, ?_⟩
        intro x hx
        rcases List.mem_cons.mp hx with rfl | hx
        · exact hc
        · exact hall x hx
      | false =>
        rcases ih acc out h with ⟨l, hout, hsub, hall⟩
        exact ⟨l, hout, List.Sublist.cons s hsub, hall⟩

/-- Unfolding equation: one step of `check_servers`. -/
theorem check_servers_cons (check : String → Except LibError Bool) (a : String)
    (rest acc : List String) :
    check_servers check (a :: rest) acc =
      match check a with
      | Except.error e => Except.error e
      | Except.ok true => check_servers check rest (acc ++ [a])
      | Except.ok false => check_servers check rest acc := rfl

/-- Unfolding equation: one step of `check_servers_calls`. -/
theorem check_servers_calls_cons (check : String → Except LibError Bool) (a : String)
    (rest : List String) :
    check_servers_calls check (a :: rest) =
      match check a with
      | Except.error _ => [a]
      | Except.ok _ => a :: check_servers_calls check rest := rfl

/-- When every server before some failing server checks cleanly, the
cycle stops at the failing one: exactly the prefix up to and including
it is queried, and the error propagates. -/
theorem check_servers_stops_at_failure
    (check : String → Except LibError Bool) (pre : List String) (s : String)
    (post : List String) (e : LibError)
    (hpre : ∀ x ∈ pre, ∃ b, check x = Except.ok b)
    (hs : check s = Except.error e) :
    check_servers_calls check (pre ++ s :: post) = pre ++ [s] ∧
    ∀ acc, check_servers check (pre ++ s :: post) acc = Except.error e := by
  induction pre with
  | nil =>
    constructor
    · rw [List.nil_append, check_servers_calls_cons, hs]
      rfl
    · intro acc
      rw [List.nil_append, check_servers_cons, hs]
  | cons a as ih =>
    rcases hpre a (List.mem_cons_self a as) with ⟨b, hb⟩
    rcases ih (fun x hx => hpre x (List.mem_cons_of_mem a hx)) with ⟨ih1, ih2⟩
    constructor
    · rw [List.cons_append, check_servers_calls_cons, hb]
      simp only [ih1, List.cons_append]
    · intro acc
      rw [List.cons_append, check_servers_cons, hb]
      cases b with
      | true => exact ih2 (acc ++ [a])
      | false => exact ih2 acc

/-- Unfolding equation: `loopRun` on a cons. -/
theorem loopRun_cons (s : LoopState) (c : CycleInput) (rest : List CycleInput) :
    loopRun s (c :: rest) =
      match loopStep s c with
      | StepOutcome.terminated e evs => LoopResult.terminated e evs
      | StepOutcome.next s2 evs =>
        match loopRun s2 rest with
        | LoopResult.terminated e evs2 => LoopResult.terminated e (evs ++ evs2)
        | LoopResult.running s3 evs2 => LoopResult.running s3 (evs ++ evs2) := rfl

/-- Cycle whose check fails: propagated on the first cycle, logged later. -/
theorem loopStep_check_error (s : LoopState) (c : CycleInput) (e : LibError)
    (h : c.check = Except.error e) :
    loopStep s c =
      if s.first_check then StepOutcome.terminated e []
      else StepOutcome.next { s with first_check := false } [LoopEvent.logCheckError e] := by
  unfold loopStep
  rw [h]

/-- Successful cycle equal to the in-memory baseline: nothing happens. -/
theorem loopStep_unchanged (s : LoopState) (c : CycleInput) (avail : List String)
    (h : c.check = Except.ok avail)
    (heq : (⟨s.provider_name, avail⟩ : CheckResult) = s.latest) :
    loopStep s c = StepOutcome.next { s with first_check := false } [] := by
  unfold loopStep
  rw [h]
  dsimp only
  rw [if_pos heq]

/-- Successful changed cycle with successful notification. -/
theorem loopStep_changed_notify_ok (s : LoopState) (c : CycleInput) (avail : List String)
    (h : c.check = Except.ok avail)
    (hne : (⟨s.provider_name, avail⟩ : CheckResult) ≠ s.latest)
    (hn : c.notify = Except.ok ()) :
    loopStep s c =
      StepOutcome.next
        { s with latest := ⟨s.provider_name, avail⟩, first_check := false,
                 first_notify := false }
        [LoopEvent.notifyAttempt ⟨s.provider_name, avail⟩ (Except.ok ())] := by
  unfold loopStep
  rw [h]
  dsimp only
  rw [if_neg hne, hn]

/-- Successful changed cycle with failing notification. -/
theorem loopStep_changed_notify_error (s : LoopState) (c : CycleInput)
    (avail : List String) (e : LibError)
    (h : c.check = Except.ok avail)
    (hne : (⟨s.provider_name, avail⟩ : CheckResult) ≠ s.latest)
    (hn : c.notify = Except.error e) :
    loopStep s c =
      if s.first_notify then
        StepOutcome.terminated e
          [LoopEvent.notifyAttempt ⟨s.provider_name, avail⟩ (Except.error e)]
      else
        StepOutcome.next
          { s with latest := ⟨s.provider_name, avail⟩, first_check := false,
                   first_notify := false }
          [LoopEvent.notifyAttempt ⟨s.provider_name, avail⟩ (Except.error e),
           LoopEvent.logNotifyError e] := by
  unfold loopStep
  rw [h]
  dsimp only
  rw [if_neg hne, hn]

/-- Any continuing iteration clears `first_check`, leaves the storage
and provider untouched, and never resets a cleared `first_notify`. -/
theorem loopStep_next_invariant (s : LoopState) (c : CycleInput) (s2 : LoopState)
    (evs : List LoopEvent) (h : loopStep s c = StepOutcome.next s2 evs) :
    s2.first_check = false ∧ s2.storage = s.storage ∧
    s2.provider_name = s.provider_name ∧
    (s.first_notify = false → s2.first_notify = false) := by
  rcases hcheck : c.check with e | avail
  · rw [loopStep_check_error s c e hcheck] at h
    by_cases hfc : s.first_check
    · rw [if_pos hfc] at h
      cases h
    · rw [if_neg hfc] at h
      cases h
      exact ⟨rfl, rfl, rfl, fun hh => hh⟩
  · by_cases heq : (⟨s.provider_name, avail⟩ : CheckResult) = s.latest
    · rw [loopStep_unchanged s c avail hcheck heq] at h
      cases h
      exact ⟨rfl, rfl, rfl, fun hh => hh⟩
    · rcases hnotify : c.notify with e | u
      · rw [loopStep_changed_notify_error s c avail e hcheck heq hnotify] at h
        by_cases hfn : s.first_notify
        · rw [if_pos hfn] at h
          cases h
        · rw [if_neg hfn] at h
          cases h
          exact ⟨rfl, rfl, rfl, fun _ => rfl⟩
      · rw [loopStep_changed_notify_ok s c avail hcheck heq hnotify] at h
        cases h
        exact ⟨rfl, rfl, rfl, fun _ => rfl⟩

/-- After one fully successful cycle (check succeeded and, if a change
was notified, the notification succeeded), every iteration continues. -/
theorem loopStep_progress (s : LoopState) (c : CycleInput)
    (hc : s.first_check = false) (hn : s.first_notify = false) :
    ∃ s2 evs, loopStep s c = StepOutcome.next s2 evs ∧
      s2.first_check = false ∧ s2.first_notify = false ∧ s2.storage = s.storage := by
  rcases hcheck : c.check with e | avail
  · rw [loopStep_check_error s c e hcheck, if_neg (by rw [hc]; exact Bool.false_ne_true)]
    exact ⟨_, _, rfl, rfl, hn, rfl⟩
  · by_cases heq : (⟨s.provider_name, avail⟩ : CheckResult) = s.latest
    · rw [loopStep_unchanged s c avail hcheck heq]
      exact ⟨_, _, rfl, rfl, hn, rfl⟩
    · rcases hnotify : c.notify with e | u
      · rw [loopStep_changed_notify_error s c avail e hcheck heq hnotify,
          if_neg (by rw [hn]; exact Bool.false_ne_true)]
        exact ⟨_, _, rfl, rfl, rfl, rfl⟩
      · rw [loopStep_changed_notify_ok s c avail hcheck heq hnotify]
        exact ⟨_, _, rfl, rfl, rfl, rfl⟩

/-- Once both first-time flags are cleared, the loop can no longer
return: it survives every further sequence of cycle outcomes. -/
theorem loopRun_progress (inputs : List CycleInput) :
    ∀ s : LoopState, s.first_check = false → s.first_notify = false →
      ∃ s2 evs, loopRun s inputs = LoopResult.running s2 evs := by
  induction inputs with
  | nil => exact fun s _ _ => ⟨s, [], rfl⟩
  | cons c rest ih =>
    intro s hc hn
    rcases loopStep_progress s c hc hn with ⟨s2, evs, hstep, hc2, hn2, _⟩
    rcases ih s2 hc2 hn2 with ⟨s3, evs2, hrun⟩
    rw [loopRun_cons, hstep]
    dsimp only
    rw [hrun]
    exact ⟨s3, evs ++ evs2, rfl⟩

/-- After the first cycle has succeeded, the only way the loop can still
return is a failing notification taken from one of the cycle inputs:
check failures can no longer end the loop. -/
theorem loopRun_terminated_cause (inputs : List CycleInput) :
    ∀ s : LoopState, s.first_check = false →
      ∀ e evs, loopRun s inputs = LoopResult.terminated e evs →
        ∃ c ∈ inputs, c.notify = Except.error e := by
  induction inputs with
  | nil =>
    intro s _ e evs h
    cases h
  | cons c rest ih =>
    intro s hc e evs h
    rw [loopRun_cons] at h
    rcases hstep : loopStep s c with ⟨s2, evs2⟩ | ⟨e2, evs2⟩
    case next =>
      rw [hstep] at h
      dsimp only at h
      rcases hrun : loopRun s2 rest with ⟨e3, evs3⟩ | ⟨s3, evs3⟩
      · rw [hrun] at h
        cases h
        have hc2 := (loopStep_next_invariant s c s2 evs2 hstep).1
        rcases ih s2 hc2 e evs3 hrun with ⟨c2, hmem, hnot⟩
        exact ⟨c2, List.mem_cons_of_mem c hmem, hnot⟩
      · rw [hrun] at h
        cases h
    case terminated =>
      rw [hstep] at h
      dsimp only at h
      cases h
      rcases hcheck : c.check with e3 | avail
      · rw [loopStep_check_error s c e3 hcheck,
          if_neg (by rw [hc]; exact Bool.false_ne_true)] at hstep
        cases hstep
      · by_cases heq : (⟨s.provider_name, avail⟩ : CheckResult) = s.latest
        · rw [loopStep_unchanged s c avail hcheck heq] at hstep
          cases hstep
        · rcases hnotify : c.notify with e3 | u
          · rw [loopStep_changed_notify_error s c avail e3 hcheck heq hnotify] at hstep
            by_cases hfn : s.first_notify
            · rw [if_pos hfn] at hstep
              cases hstep
              exact ⟨c, List.mem_cons_self c rest, hnotify⟩
            · rw [if_neg hfn] at hstep
              cases hstep
          · rw [loopStep_changed_notify_ok s c avail hcheck heq hnotify] at hstep
            cases hstep

/-- Lookup after in-place modification at the same key. -/
theorem lookupOffer_modify_self (m : List (String × ScalewayBaremetalOffer))
    (k : String) (f : ScalewayBaremetalOffer → ScalewayBaremetalOffer) :
    lookupOffer (modifyOffer m k f) k = (lookupOffer m k).map f := by
  induction m with
  | nil => rfl
  | cons p rest ih =>
    unfold modifyOffer at *
    by_cases h : p.1 = k
    · simp [lookupOffer, h, ih]
    · simp [lookupOffer, h, ih]

/-- Lookup after in-place modification at a different key. -/
theorem lookupOffer_modify_ne (m : List (String × ScalewayBaremetalOffer))
    (k k2 : String) (f : ScalewayBaremetalOffer → ScalewayBaremetalOffer)
    (hne : k2 ≠ k) :
    lookupOffer (modifyOffer m k f) k2 = lookupOffer m k2 := by
  induction m with
  | nil => rfl
  | cons p rest ih =>
    unfold modifyOffer at *
    by_cases h : p.1 = k
    · have hkk : k ≠ k2 := fun hh => hne hh.symm
      simp [lookupOffer, h, hkk, ih]
    · by_cases h2 : p.1 = k2
      · simp [lookupOffer, h, h2, hne]
      · simp [lookupOffer, h, h2, ih]

/-- Lookup after appending a fresh entry. -/
theorem lookupOffer_append (m : List (String × ScalewayBaremetalOffer))
    (j k : String) (o : ScalewayBaremetalOffer) :
    lookupOffer (m ++ [(j, o)]) k =
      match lookupOffer m k with
      | some x => some x
      | none => if j = k then some o else none := by
  induction m with
  | nil => rfl
  | cons p rest ih =>
    by_cases h : p.1 = k
    · simp [lookupOffer, h]
    · simp [lookupOffer, h, ih]

/-- Replacing the enable and stock fields with those of an available
offer makes the entry available. -/
theorem upgraded_is_available (info o : ScalewayBaremetalOffer)
    (h : o.is_available = true) :
    ScalewayBaremetalOffer.is_available
      { info with enable := o.enable, stock := o.stock } = true := h

/-- Inserting any further sighting never downgrades an available entry. -/
theorem insert_preserves_available (m : List (String × ScalewayBaremetalOffer))
    (o : ScalewayBaremetalOffer) (id2 : String) (o0 : ScalewayBaremetalOffer)
    (h : lookupOffer m id2 = some o0) (ha : o0.is_available = true) :
    ∃ o1, lookupOffer (Scaleway.insert_or_update_offer m o) id2 = some o1 ∧
      o1.is_available = true := by
  unfold Scaleway.insert_or_update_offer
  by_cases hid : o.id = id2
  · rw [hid]
    rw [hid] at *
    rw [h]
    dsimp only
    rw [lookupOffer_modify_self, h]
    by_cases hav : o.is_available
    · exact ⟨_, rfl, by simp [hav, upgraded_is_available _ _ hav]⟩
    · exact ⟨_, rfl, by simp [hav, ha]⟩
  · rcases hl : lookupOffer m o.id with _ | o2
    · rw [lookupOffer_append, h]
      exact ⟨o0, rfl, ha⟩
    · rw [lookupOffer_modify_ne m o.id id2 _ (fun hh => hid hh.symm), h]
      exact ⟨o0, rfl, ha⟩

/-- Inserting an available sighting makes its id available in the map,
whether or not it was present before. -/
theorem insert_establishes_available (m : List (String × ScalewayBaremetalOffer))
    (o : ScalewayBaremetalOffer) (ha : o.is_available = true) :
    ∃ o1, lookupOffer (Scaleway.insert_or_update_offer m o) o.id = some o1 ∧
      o1.is_available = true := by
  unfold Scaleway.insert_or_update_offer
  rcases hl : lookupOffer m o.id with _ | o2
  · rw [lookupOffer_append, hl]
    dsimp only
    rw [if_pos rfl]
    exact ⟨o, rfl, ha⟩
  · dsimp only
    rw [lookupOffer_modify_self, hl]
    exact ⟨_, rfl, by simp [ha, upgraded_is_available _ _ ha]⟩

/-- Folding sightings over the map: an id known available before, or
reported available by some sighting in the list, is available after. -/
theorem foldl_insert_available (l : List ScalewayBaremetalOffer) :
    ∀ (m : List (String × ScalewayBaremetalOffer)) (id2 : String),
      ((∃ o0, lookupOffer m id2 = some o0 ∧ o0.is_available = true) ∨
       (∃ o ∈ l, o.id = id2 ∧ o.is_available = true)) →
      ∃ o1, lookupOffer (l.foldl Scaleway.insert_or_update_offer m) id2 = some o1 ∧
        o1.is_available = true := by
  induction l with
  | nil =>
    intro m id2 h
    rcases h with ⟨o0, hm, ha⟩ | ⟨o, hmem, _, _⟩
    · exact ⟨o0, hm, ha⟩
    · cases hmem
  | cons o rest ih =>
    intro m id2 h
    rw [List.foldl_cons]
    rcases h with ⟨o0, hm, ha⟩ | ⟨w, hmem, hid, hav⟩
    · exact ih _ id2 (Or.inl (insert_preserves_available m o id2 o0 hm ha))
    · rcases List.mem_cons.mp hmem with rfl | hmem2
      · rw [← hid]
        exact ih _ w.id (Or.inl (insert_establishes_available m w hav))
      · exact ih _ id2 (Or.inr ⟨w, hmem2, hid, hav⟩)

/-- The zone-by-zone merge equals the fold over all sightings in order. -/
theorem get_offers_eq_foldl_flatten (zones : List (List ScalewayBaremetalOffer)) :
    Scaleway.get_offers zones =
      zones.flatten.foldl Scaleway.insert_or_update_offer [] := by
  unfold Scaleway.get_offers
  rw [List.foldl_flatten]

/-! ## Claim theorems -/

/-- Claim C1 (counterexample): the storage key is not order-insensitive.
For provider `x`, the requested-server lists `[A, B]` and `[B, A]` are
permutations of each other but `CheckResultStorage::get_path` maps them
to different file paths, because `to_json_sha256` hashes the JSON
serialization of the list in the order given. -/
theorem C1_counterexample_get_path_order_sensitive :
    CheckResultStorage.get_path [] "x" ["A", "B"] ≠
      CheckResultStorage.get_path [] "x" ["B", "A"] := by
  decide

/-- Claim C1 (amended): the storage key is a deterministic function of
the provider name and the JSON serialization of the requested-server
list in its given order; two requests with the same servers in the same
order map to the same fingerprint record, but permutations in general do
not (see the counterexample for `[A, B]` versus `[B, A]`). -/
theorem C1_get_path_determined_by_serialization (base : List String) (p : String)
    (l1 l2 : List String) (h : jsonVecString l1 = jsonVecString l2) :
    CheckResultStorage.get_path base p l1 = CheckResultStorage.get_path base p l2 := by
  unfold CheckResultStorage.get_path to_json_sha256
  rw [h]

/-- Witness for C1: equal serializations (identical lists) give equal paths. -/
theorem C1_witness_get_path :
    jsonVecString ["A"] = jsonVecString ["A"] ∧
    CheckResultStorage.get_path [] "x" ["A"] = CheckResultStorage.get_path [] "x" ["A"] :=
  ⟨rfl, C1_get_path_determined_by_serialization [] "x" ["A"] ["A"] rfl⟩

/-- Claim C5: first-run property of the fingerprint store.  When the
computed path reads as `NotFound`, `is_equal` answers `Ok(false)`; when
it reads with any other io failure, `is_equal` answers `Err(IOError)`;
when a content is read, `is_equal` answers a boolean comparison, so the
missing file is the only read failure treated as the normal first-run
case. -/
theorem C5_first_run_property (fs : FS) (base : List String) (p : String)
    (servers : List String) (r : CheckResult) :
    (fs (CheckResultStorage.get_path base p servers) = ReadResult.notFound →
      CheckResultStorage.is_equal fs base p servers r = Except.ok false) ∧
    (∀ k, fs (CheckResultStorage.get_path base p servers) = ReadResult.failure k →
      CheckResultStorage.is_equal fs base p servers r = Except.error LibError.IOError) ∧
    (∀ content, fs (CheckResultStorage.get_path base p servers) = ReadResult.ok content →
      CheckResultStorage.is_equal fs base p servers r =
        Except.ok (to_json_sha256 r.available_servers == rustTrim content)) := by
  refine ⟨?_, ?_, ?_⟩
  · intro h
    unfold CheckResultStorage.is_equal CheckResultStorage.get_hash
    rw [h]
  · intro k h
    unfold CheckResultStorage.is_equal CheckResultStorage.get_hash
    rw [h]
  · intro content h
    unfold CheckResultStorage.is_equal CheckResultStorage.get_hash
    rw [h]

/-- Witness for C5: on an empty storage root `is_equal` answers false,
and on a root where reads fail it answers `IOError`. -/
theorem C5_witness_first_run :
    CheckResultStorage.is_equal emptyFS [] "prov" ["A"] ⟨"prov", []⟩ = Except.ok false ∧
    CheckResultStorage.is_equal failFS [] "prov" ["A"] ⟨"prov", []⟩ =
      Except.error LibError.IOError :=
  ⟨(C5_first_run_property emptyFS [] "prov" ["A"] ⟨"prov", []⟩).1 rfl,
   (C5_first_run_property failFS [] "prov" ["A"] ⟨"prov", []⟩).2.1 0 rfl⟩

/-- Claim C6: round trip of the fingerprint store.  For every state of
the storage, provider name, requested-server list and `CheckResult`,
`put_hash` followed by `is_equal` with the same result answers true.
In this embedding a writing operation returns the updated filesystem
while `is_equal` returns only its answer; that `is_equal` takes and
returns no changed filesystem is the shape of the source function, which
performs no write, so any repetition of the call denotes the same value. -/
theorem C6_put_hash_then_is_equal (fs : FS) (base : List String) (p : String)
    (servers : List String) (r : CheckResult) :
    CheckResultStorage.is_equal (CheckResultStorage.put_hash fs base p servers r)
      base p servers r = Except.ok true :=
  is_equal_after_put_hash fs base p servers r

/-- Claim C7: the OVH check outcome is determined by the number of
records in the filtered availability response: zero records give
`UnknownServer`, exactly one gives the availability boolean of that
record, and two or more give the ambiguity `ApiError`.  The three cases
cover every response, and the return type of `check` makes a
simultaneous value and error impossible. -/
theorem C7_ovh_check_cases (server : String)
    (r r1 r2 : OvhDedicatedServerInformation)
    (rest : List OvhDedicatedServerInformation) :
    Ovh.check server [] = Except.error (LibError.UnknownServer server) ∧
    Ovh.check server [r] = Except.ok r.is_available ∧
    Ovh.check server (r1 :: r2 :: rest) =
      Except.error
        (LibError.ApiError ("Multiple references found for server " ++ server)) := by
  refine ⟨rfl, rfl, ?_⟩
  unfold Ovh.check
  rfl

/-- Claim C2 (counterexample): the interval loop does not compare against
the fingerprint persisted by `CheckResultStorage`.  Concretely, with the
fingerprint of the result `available_servers = [A]` already persisted for
provider `prov` and request `[A]` (so `is_equal` answers true and the
claim would predict no notification), a first cycle observing exactly
`[A]` still triggers a notification, and the loop leaves the storage
exactly as it was: `check_interval_loop` consults only its in-memory
baseline. -/
theorem C2_counterexample_loop_ignores_storage :
    CheckResultStorage.is_equal storedFS [] "prov" ["A"] ⟨"prov", ["A"]⟩ =
      Except.ok true ∧
    loopRun (initLoopState "prov" storedFS) [⟨Except.ok ["A"], Except.ok ()⟩] =
      LoopResult.running
        { provider_name := "prov", latest := ⟨"prov", ["A"]⟩, first_check := false,
          first_notify := false, storage := storedFS }
        [LoopEvent.notifyAttempt ⟨"prov", ["A"]⟩ (Except.ok ())] :=
  ⟨is_equal_after_put_hash emptyFS [] "prov" ["A"] ⟨"prov", ["A"]⟩, rfl⟩

/-- Claim C2 (amended): in interval mode every cycle whose check succeeds
is compared against the in-memory result of the previous successful,
changed cycle (initially the empty fresh result), not against the
persisted fingerprint; when they differ the controller stores the new
result in that in-memory baseline and invokes the notifier, and a cycle
whose check fails (after the first) leaves the baseline unmodified.  In
every case the storage field of the state is untouched: the interval
loop neither reads nor writes `CheckResultStorage`. -/
theorem C2_interval_loop_uses_memory_baseline (s : LoopState) (c : CycleInput)
    (avail : List String) (e : LibError) :
    (c.check = Except.ok avail →
      ((⟨s.provider_name, avail⟩ : CheckResult) = s.latest →
        loopStep s c = StepOutcome.next { s with first_check := false } []) ∧
      ((⟨s.provider_name, avail⟩ : CheckResult) ≠ s.latest →
        c.notify = Except.ok () →
        loopStep s c =
          StepOutcome.next
            { s with latest := ⟨s.provider_name, avail⟩, first_check := false,
                     first_notify := false }
            [LoopEvent.notifyAttempt ⟨s.provider_name, avail⟩ (Except.ok ())])) ∧
    (c.check = Except.error e → s.first_check = false →
      loopStep s c =
        StepOutcome.next { s with first_check := false } [LoopEvent.logCheckError e]) := by
  constructor
  · intro h
    constructor
    · intro heq
      exact loopStep_unchanged s c avail h heq
    · intro hne hn
      exact loopStep_changed_notify_ok s c avail h hne hn
  · intro h hfc
    rw [loopStep_check_error s c e h, if_neg (by rw [hfc]; exact Bool.false_ne_true)]

/-- Witness for C2: concrete unchanged and failed cycles from the ready
state continue with the baseline kept, and a changed cycle updates it. -/
theorem C2_witness_memory_baseline :
    loopStep readyState ⟨Except.ok [], Except.ok ()⟩ =
      StepOutcome.next { readyState with first_check := false } [] ∧
    loopStep readyState ⟨Except.error LibError.IOError, Except.ok ()⟩ =
      StepOutcome.next { readyState with first_check := false }
        [LoopEvent.logCheckError LibError.IOError] :=
  ⟨((C2_interval_loop_uses_memory_baseline readyState
      ⟨Except.ok [], Except.ok ()⟩ [] LibError.IOError).1 rfl).1 rfl,
   (C2_interval_loop_uses_memory_baseline readyState
      ⟨Except.error LibError.IOError, Except.ok ()⟩ [] LibError.IOError).2 rfl rfl⟩

/-- Claim C3 (counterexample): per-server checks do short-circuit.  With
a provider whose check fails on server `A` and succeeds elsewhere, the
cycle on the request `[A, B]` invokes the provider only on `A`: server
`B` is never checked, and the whole cycle propagates the error. -/
theorem C3_counterexample_short_circuit :
    check_servers_calls failOnA ["A", "B"] = ["A"] ∧
    "B" ∉ check_servers_calls failOnA ["A", "B"] ∧
    check_servers failOnA ["A", "B"] [] = Except.error LibError.IOError :=
  ⟨rfl, by decide, rfl⟩

/-- Claim C3 (amended): within one cycle, per-server checks short-circuit
at the first failure: the provider is invoked on each requested server in
order up to and including the first one whose check errors, the error is
propagated as the outcome of the cycle, and the servers after the failing
one are not checked in that cycle. -/
theorem C3_check_servers_short_circuits
    (check : String → Except LibError Bool) (pre : List String) (s : String)
    (post : List String) (e : LibError)
    (hpre : ∀ x ∈ pre, ∃ b, check x = Except.ok b)
    (hs : check s = Except.error e) :
    check_servers_calls check (pre ++ s :: post) = pre ++ [s] ∧
    ∀ acc, check_servers check (pre ++ s :: post) acc = Except.error e :=
  check_servers_stops_at_failure check pre s post e hpre hs

/-- Witness for C3: request `[X, A, B]` against the provider failing on
`A` checks exactly `X` then `A` and propagates the error. -/
theorem C3_witness_short_circuit :
    check_servers_calls failOnA (["X"] ++ "A" :: ["B"]) = ["X"] ++ ["A"] ∧
    check_servers failOnA (["X"] ++ "A" :: ["B"]) [] = Except.error LibError.IOError :=
  ⟨(C3_check_servers_short_circuits failOnA ["X"] "A" ["B"] LibError.IOError
      (fun x hx => by
        rcases List.mem_singleton.mp hx with rfl
        exact ⟨true, rfl⟩) rfl).1,
   (C3_check_servers_short_circuits failOnA ["X"] "A" ["B"] LibError.IOError
      (fun x hx => by
        rcases List.mem_singleton.mp hx with rfl
        exact ⟨true, rfl⟩) rfl).2 []⟩

/-- Claim C4: the error-escalation behaviour of the interval loop.
First, a check failure on the very first cycle returns the error to the
caller, ending the loop before any event.  Second, once a first cycle
has fully succeeded (both first-time flags cleared), no later cycle
outcome of any kind ends the loop.  Third, after the first cycle has
succeeded, the only error the loop can still return is a failing
notification outcome taken from one of the inputs, so check failures
never end the loop anymore.  Fourth, a failing notification attempt made
while no notification has completed before (`first_notify` still set)
returns that error, ending the loop. -/
theorem C4_escalation_state_machine :
    (∀ (p : String) (fs : FS) (e : LibError) (c : CycleInput)
       (rest : List CycleInput),
      c.check = Except.error e →
      loopRun (initLoopState p fs) (c :: rest) = LoopResult.terminated e []) ∧
    (∀ (s : LoopState) (inputs : List CycleInput),
      s.first_check = false → s.first_notify = false →
      ∃ s2 evs, loopRun s inputs = LoopResult.running s2 evs) ∧
    (∀ (s : LoopState) (inputs : List CycleInput) (e : LibError)
       (evs : List LoopEvent),
      s.first_check = false →
      loopRun s inputs = LoopResult.terminated e evs →
      ∃ c ∈ inputs, c.notify = Except.error e) ∧
    (∀ (s : LoopState) (c : CycleInput) (avail : List String) (e : LibError),
      s.first_notify = true → c.check = Except.ok avail →
      (⟨s.provider_name, avail⟩ : CheckResult) ≠ s.latest →
      c.notify = Except.error e →
      loopStep s c =
        StepOutcome.terminated e
          [LoopEvent.notifyAttempt ⟨s.provider_name, avail⟩ (Except.error e)]) := by
  refine ⟨?_, ?_, ?_, ?_⟩
  · intro p fs e c rest h
    rw [loopRun_cons, loopStep_check_error _ _ _ h,
      if_pos (show (initLoopState p fs).first_check = true from rfl)]
  · intro s inputs hc hn
    exact loopRun_progress inputs s hc hn
  · intro s inputs e evs hc hrun
    exact loopRun_terminated_cause inputs s hc e evs hrun
  · intro s c avail e hn hcheck hne hnotify
    rw [loopStep_changed_notify_error s c avail e hcheck hne hnotify, if_pos hn]

/-- Witness for C4: the outcome sequence fail-fail-success-fail ends the
loop at the first cycle with that error; from a state whose first cycle
has fully succeeded, the sequence success-fail-fail-success keeps the
loop running; and a failing first notification attempt ends the loop. -/
theorem C4_witness_escalation :
    loopRun (initLoopState "p" emptyFS)
      [⟨Except.error LibError.IOError, Except.ok ()⟩,
       ⟨Except.error LibError.IOError, Except.ok ()⟩,
       ⟨Except.ok ["A"], Except.ok ()⟩,
       ⟨Except.error LibError.IOError, Except.ok ()⟩] =
      LoopResult.terminated LibError.IOError [] ∧
    loopRun readyState
      [⟨Except.ok ["A"], Except.ok ()⟩,
       ⟨Except.error LibError.IOError, Except.ok ()⟩,
       ⟨Except.error LibError.IOError, Except.ok ()⟩,
       ⟨Except.ok ["A"], Except.ok ()⟩] =
      LoopResult.running
        { provider_name := "p", latest := ⟨"p", ["A"]⟩, first_check := false,
          first_notify := false, storage := emptyFS }
        [LoopEvent.notifyAttempt ⟨"p", ["A"]⟩ (Except.ok ()),
         LoopEvent.logCheckError LibError.IOError,
         LoopEvent.logCheckError LibError.IOError] ∧
    loopStep (initLoopState "p" emptyFS) ⟨Except.ok ["A"], Except.error LibError.IOError⟩ =
      StepOutcome.terminated LibError.IOError
        [LoopEvent.notifyAttempt ⟨"p", ["A"]⟩ (Except.error LibError.IOError)] :=
  ⟨C4_escalation_state_machine.1 "p" emptyFS LibError.IOError _ _ rfl,
   rfl,
   C4_escalation_state_machine.2.2.2 (initLoopState "p" emptyFS)
     ⟨Except.ok ["A"], Except.error LibError.IOError⟩ ["A"] LibError.IOError
     rfl rfl (by decide) rfl⟩

/-- Claim C8: the Scaleway zone merge is monotonic and upgrade-only.  If
any zone in the processed sequence reports an offer id available, the
merged inventory reports that id available, for every ordering of the
zone results; and inserting any further sighting never downgrades an
entry that is already available (an available incoming sighting replaces
the stored enable and stock fields, an unavailable one changes nothing). -/
theorem C8_scaleway_merge_monotone (zones : List (List ScalewayBaremetalOffer))
    (k : String)
    (h : ∃ o ∈ zones.flatten, o.id = k ∧ o.is_available = true) :
    availableInMap (Scaleway.get_offers zones) k = true ∧
    (∀ (m : List (String × ScalewayBaremetalOffer)) (o o0 : ScalewayBaremetalOffer),
      lookupOffer m o.id = some o0 → o0.is_available = true →
      ∃ o1, lookupOffer (Scaleway.insert_or_update_offer m o) o.id = some o1 ∧
        o1.is_available = true) := by
  constructor
  · rw [get_offers_eq_foldl_flatten]
    rcases foldl_insert_available zones.flatten [] k (Or.inr h) with ⟨o1, h1, h2⟩
    unfold availableInMap
    rw [h1]
    exact h2
  · intro m o o0 hm ha
    exact insert_preserves_available m o o.id o0 hm ha

/-- Witness for C8: offer `X` out of stock in zone 1 and in stock in
zone 2 merges to an available entry. -/
theorem C8_witness_merge :
    availableInMap (Scaleway.get_offers [[offerUnavailable], [offerAvailable]]) "X" =
      true :=
  (C8_scaleway_merge_monotone [[offerUnavailable], [offerAvailable]] "X"
    ⟨offerAvailable, by decide, rfl, rfl⟩).1

/-- Claim C9: invariant of the accumulated `CheckResult`.  Whenever a
cycle completes all its checks, the accumulated `available_servers` list
is an ordered sublist of the requested-server list (so it contains only
requested identifiers, in request order, with an identifier occurring at
most as often as it was requested), and every entry was pushed because
the provider reported it available. -/
theorem C9_available_servers_sublist (check : String → Except LibError Bool)
    (servers out : List String)
    (h : check_servers check servers [] = Except.ok out) :
    out.Sublist servers ∧ ∀ x ∈ out, check x = Except.ok true := by
  rcases check_servers_ok_characterization check servers [] out h with
    ⟨l, rfl, hsub, hall⟩
  exact ⟨hsub, hall⟩

/-- Witness for C9: an all-available provider on request `[A, B]`
accumulates exactly `[A, B]`. -/
theorem C9_witness_sublist :
    List.Sublist ["A", "B"] ["A", "B"] ∧ allAvailable "A" = Except.ok true :=
  ⟨(C9_available_servers_sublist allAvailable ["A", "B"] ["A", "B"] rfl).1,
   (C9_available_servers_sublist allAvailable ["A", "B"] ["A", "B"] rfl).2 "A"
     (List.mem_cons_self "A" ["B"])⟩

/-- Claim C10: when a changed result fails to be notified after some
earlier notification has succeeded (`first_notify` cleared), the
in-memory baseline is nevertheless replaced by the new result before the
notification outcome is inspected: the cycle continues with
`latest` updated, and a later cycle observing the identical result
compares equal to the baseline and attempts no further notification. -/
theorem C10_failed_notify_still_updates_baseline (s : LoopState) (c c2 : CycleInput)
    (avail : List String) (e : LibError)
    (hn : s.first_notify = false)
    (h1 : c.check = Except.ok avail)
    (hne : (⟨s.provider_name, avail⟩ : CheckResult) ≠ s.latest)
    (h2 : c.notify = Except.error e) :
    loopStep s c =
      StepOutcome.next
        { s with latest := ⟨s.provider_name, avail⟩, first_check := false,
                 first_notify := false }
        [LoopEvent.notifyAttempt ⟨s.provider_name, avail⟩ (Except.error e),
         LoopEvent.logNotifyError e] ∧
    (c2.check = Except.ok avail →
      loopStep
        { s with latest := ⟨s.provider_name, avail⟩, first_check := false,
                 first_notify := false } c2 =
      StepOutcome.next
        { s with latest := ⟨s.provider_name, avail⟩, first_check := false,
                 first_notify := false } []) := by
  constructor
  · rw [loopStep_changed_notify_error s c avail e h1 hne h2,
      if_neg (by rw [hn]; exact Bool.false_ne_true)]
  · intro h3
    rw [loopStep_unchanged _ c2 avail h3 rfl]

/-- Witness for C10: from the ready state, a changed cycle whose
notification fails still moves the new result into the baseline, and an
identical following cycle triggers no notification attempt. -/
theorem C10_witness_baseline :
    loopStep readyState ⟨Except.ok ["A"], Except.error LibError.IOError⟩ =
      StepOutcome.next
        { readyState with latest := ⟨"p", ["A"]⟩, first_check := false,
                          first_notify := false }
        [LoopEvent.notifyAttempt ⟨"p", ["A"]⟩ (Except.error LibError.IOError),
         LoopEvent.logNotifyError LibError.IOError] ∧
    loopStep
      { readyState with latest := ⟨"p", ["A"]⟩, first_check := false,
                        first_notify := false } ⟨Except.ok ["A"], Except.ok ()⟩ =
      StepOutcome.next
        { readyState with latest := ⟨"p", ["A"]⟩, first_check := false,
                          first_notify := false } [] :=
  ⟨(C10_failed_notify_still_updates_baseline readyState
      ⟨Except.ok ["A"], Except.error LibError.IOError⟩
      ⟨Except.ok ["A"], Except.ok ()⟩ ["A"] LibError.IOError
      rfl rfl (by decide) rfl).1,
   (C10_failed_notify_still_updates_baseline readyState
      ⟨Except.ok ["A"], Except.error LibError.IOError⟩
      ⟨Except.ok ["A"], Except.ok ()⟩ ["A"] LibError.IOError
      rfl rfl (by decide) rfl).2 rfl⟩
